import Mathlib

/-!
Verification of the ClickUp CAG synchronization pipeline.

This file is a shallow embedding, in Lean 4, of the synchronization core of
the repository:

* `src/lib/services/rate-limiter.ts` — sliding-window rate limiter;
* `src/lib/clickup/client.ts` — ClickUp API client (task pagination, URL/ID
  extraction, webhook signature verification);
* `src/lib/clickup/sync.ts` — full list sync and webhook registration;
* `src/lib/clickup/webhook-handler.ts` — webhook delta processor;
* the webhook HTTP POST route;
* the relational schema of `supabase/migrations` (tables `lists_CAG_custom`,
  `tasks_CAG_custom`, `comments_CAG_custom`, `webhooks_CAG_custom`, and
  `task_due_date_history` from `docs/migrations`).

External effects (HTTP fetches, database driver results, `Math.random`,
`Date.now()`) are passed in explicitly as oracle values, so every embedded
function is a total, executable Lean function whose control flow mirrors the
TypeScript source line by line.
-/

set_option maxRecDepth 20000

/-! ## Rate limiter — `src/lib/services/rate-limiter.ts`

Timestamps are JavaScript `Date.now()` millisecond values, modelled as `Int`.
The `Map<string, RequestLog[]>` is modelled as an insertion-ordered
association list, matching JS `Map` semantics (`set` on an existing key
updates in place, otherwise appends). -/

structure RateLimitConfig where
  maxRequests : Nat
  windowMs : Int
deriving Repr, DecidableEq

abbrev RequestLog := List Int

/-- JS `map.get(key)`: the value at `key`, if present. -/
def mapGet (m : List (String × RequestLog)) (key : String) : Option RequestLog :=
  (m.find? (fun p => p.1 == key)).map (fun p => p.2)

/-- JS `map.set(key, v)`: update in place if the key exists (JS `Map` keys are
unique, so updating the first occurrence is updating in place), else append. -/
def mapSet (m : List (String × RequestLog)) (key : String) (v : RequestLog) :
    List (String × RequestLog) :=
  match m with
  | [] => [(key, v)]
  | p :: rest => if p.1 == key then (key, v) :: rest else p :: mapSet rest key v

structure RateLimiter where
  config : RateLimitConfig
  requests : List (String × RequestLog)
deriving Repr, DecidableEq

/-- The stored request log for a bucket key: `this.requests.get(key) || []`. -/
def RateLimiter.keyLog (rl : RateLimiter) (key : String) : RequestLog :=
  (mapGet rl.requests key).getD []

/-- The timestamps of a log that lie inside the sliding window at time `now`:
`keyRequests.filter((req) => req.timestamp > windowStart)` with
`windowStart = now - windowMs`. -/
def inWindow (cfg : RateLimitConfig) (now : Int) (log : RequestLog) : RequestLog :=
  log.filter (fun t => now - cfg.windowMs < t)

/-- Embeds `RateLimiter.cleanup()`: every bucket's log is pruned to the
timestamps still inside the window, and buckets left empty are deleted. -/
def RateLimiter.cleanup (rl : RateLimiter) (now : Int) : RateLimiter :=
  { rl with
    requests :=
      (rl.requests.map (fun p => (p.1, inWindow rl.config now p.2))).filter
        (fun p => !p.2.isEmpty) }

/-- Embeds `RateLimiter.checkLimit(key)`.  `now` is the value of `Date.now()`
and `randomCleanup` the outcome of the `Math.random() < 0.01` draw that
triggers the opportunistic cleanup on the admitted path.  Returns the decision
together with the successor state. -/
def RateLimiter.checkLimit (rl : RateLimiter) (key : String) (now : Int)
    (randomCleanup : Bool) : Bool × RateLimiter :=
  let keyRequests := inWindow rl.config now (rl.keyLog key)
  if rl.config.maxRequests ≤ keyRequests.length then
    (false, { rl with requests := mapSet rl.requests key keyRequests })
  else
    let rl' : RateLimiter :=
      { rl with requests := mapSet rl.requests key (keyRequests ++ [now]) }
    (true, if randomCleanup then rl'.cleanup now else rl')

/-- Runs `n` successive `checkLimit` calls for `key`, all at time `now`
(a burst in quick succession, with no cleanup draw); the Boolean records
whether every call in the burst was admitted. -/
def runCalls (rl : RateLimiter) (key : String) (now : Int) : Nat → Bool × RateLimiter
  | 0 => (true, rl)
  | n + 1 =>
    let r := rl.checkLimit key now false
    let rest := runCalls r.2 key now n
    (r.1 && rest.1, rest.2)

lemma mapGet_mapSet_self (m : List (String × RequestLog)) (k : String) (v : RequestLog) :
    mapGet (mapSet m k v) k = some v := by
  induction m with
  | nil => simp [mapSet, mapGet]
  | cons hd tl ih =>
    by_cases hhd : hd.1 = k
    · simp [mapSet, mapGet, hhd]
    · have hhd' : (hd.1 == k) = false := by simp [hhd]
      simpa [mapSet, mapGet, hhd'] using ih

lemma mapGet_mapSet_ne (m : List (String × RequestLog)) (k k' : String) (v : RequestLog)
    (h : k' ≠ k) : mapGet (mapSet m k v) k' = mapGet m k' := by
  induction m with
  | nil => simp [mapSet, mapGet, Ne.symm h]
  | cons hd tl ih =>
    by_cases hhd : hd.1 = k
    · have hne : (hd.1 == k') = false := by
        rw [hhd]; simp [Ne.symm h]
      simp [mapSet, mapGet, hhd, hne, Ne.symm h]
    · have hhd' : (hd.1 == k) = false := by simp [hhd]
      by_cases hk' : hd.1 = k'
      · simp only [mapSet, hhd', Bool.false_eq_true, if_false]
        simp [mapGet, hk']
      · have hne : (hd.1 == k') = false := by simp [hk']
        simp only [mapSet, hhd', Bool.false_eq_true, if_false]
        simpa [mapGet, hne] using ih

/-- Admission characterization: `checkLimit` returns `true` exactly when
fewer than `maxRequests` recorded timestamps lie inside the window. -/
lemma checkLimit_admit_iff (rl : RateLimiter) (key : String) (now : Int) (b : Bool) :
    (rl.checkLimit key now b).1 = true ↔
      (inWindow rl.config now (rl.keyLog key)).length < rl.config.maxRequests := by
  unfold RateLimiter.checkLimit
  by_cases h : rl.config.maxRequests ≤ (inWindow rl.config now (rl.keyLog key)).length
  · simp [h, Nat.not_lt.mpr h]
  · simp [h, Nat.lt_of_not_le h]

/-- On the admitted path (without the cleanup draw), the stored log for the
key becomes the pruned log with the current timestamp appended. -/
lemma checkLimit_keyLog_true (rl : RateLimiter) (key : String) (now : Int)
    (h : (rl.checkLimit key now false).1 = true) :
    ((rl.checkLimit key now false).2).keyLog key =
      inWindow rl.config now (rl.keyLog key) ++ [now] := by
  have hlt := (checkLimit_admit_iff rl key now false).mp h
  have hcond : ¬ rl.config.maxRequests ≤ (inWindow rl.config now (rl.keyLog key)).length :=
    Nat.not_le.mpr hlt
  simp only [RateLimiter.checkLimit, hcond, if_false]
  simp [RateLimiter.keyLog, mapGet_mapSet_self]

/-- On the denied path, the stored log for the key is only pruned — the
current timestamp is not appended.  The denied path never runs the cleanup
draw, so the successor state does not depend on it. -/
lemma checkLimit_keyLog_false (rl : RateLimiter) (key : String) (now : Int) (b : Bool)
    (h : (rl.checkLimit key now b).1 = false) :
    ((rl.checkLimit key now b).2).keyLog key =
      inWindow rl.config now (rl.keyLog key) := by
  have hge : rl.config.maxRequests ≤ (inWindow rl.config now (rl.keyLog key)).length := by
    by_contra hlt
    have := (checkLimit_admit_iff rl key now b).mpr (Nat.lt_of_not_le hlt)
    rw [h] at this
    exact Bool.false_ne_true this
  simp only [RateLimiter.checkLimit, hge, if_true]
  simp [RateLimiter.keyLog, mapGet_mapSet_self]

lemma checkLimit_config (rl : RateLimiter) (key : String) (now : Int) (b : Bool) :
    ((rl.checkLimit key now b).2).config = rl.config := by
  unfold RateLimiter.checkLimit RateLimiter.cleanup
  by_cases h : rl.config.maxRequests ≤ (inWindow rl.config now (rl.keyLog key)).length
  · simp [h]
  · cases b <;> simp [h]

/-- Pruning twice at a later time equals pruning once at the later time. -/
lemma inWindow_inWindow (cfg : RateLimitConfig) (now now' : Int) (log : RequestLog)
    (h : now ≤ now') :
    inWindow cfg now' (inWindow cfg now log) = inWindow cfg now' log := by
  unfold inWindow
  rw [List.filter_filter]
  apply List.filter_congr
  intro t _
  by_cases h' : now' - cfg.windowMs < t
  · have : now - cfg.windowMs < t := lt_of_le_of_lt (by omega) h'
    simp [h', this]
  · simp [h']

lemma checkLimit_fst_eq_decide (rl : RateLimiter) (key : String) (now : Int) (b : Bool) :
    (rl.checkLimit key now b).1 =
      decide ((inWindow rl.config now (rl.keyLog key)).length < rl.config.maxRequests) := by
  by_cases h : rl.config.maxRequests ≤ (inWindow rl.config now (rl.keyLog key)).length
  · have h1 : (rl.checkLimit key now b).1 = false := by
      simp only [RateLimiter.checkLimit, h, if_true]
    rw [h1, eq_comm, decide_eq_false_iff_not]
    exact Nat.not_lt.mpr h
  · have h1 : (rl.checkLimit key now b).1 = true := by
      simp only [RateLimiter.checkLimit, h, if_false]
    rw [h1, eq_comm, decide_eq_true_eq]
    exact Nat.lt_of_not_le h

lemma mem_mapSet {m : List (String × RequestLog)} {k : String} {v : RequestLog} :
    ∀ p ∈ mapSet m k v, p = (k, v) ∨ p ∈ m := by
  induction m with
  | nil => intro p hp; simp [mapSet] at hp; left; exact hp
  | cons hd tl ih =>
    intro p hp
    by_cases hhd : hd.1 = k
    · have hb : (hd.1 == k) = true := by simp [hhd]
      simp only [mapSet, hb, if_true, List.mem_cons] at hp
      rcases hp with h1 | h2
      · left; exact h1
      · right; exact List.mem_cons_of_mem _ h2
    · have hb : (hd.1 == k) = false := by simp [hhd]
      simp only [mapSet, hb, Bool.false_eq_true, if_false, List.mem_cons] at hp
      rcases hp with h1 | h2
      · right; exact h1 ▸ List.mem_cons_self hd tl
      · rcases ih p h2 with h | h
        · left; exact h
        · right; exact List.mem_cons_of_mem _ h

lemma keyLog_length_le {rl : RateLimiter} {n : Nat}
    (h : ∀ p ∈ rl.requests, p.2.length ≤ n) (k : String) : (rl.keyLog k).length ≤ n := by
  unfold RateLimiter.keyLog mapGet
  cases hf : rl.requests.find? (fun p => p.1 == k) with
  | none => simp
  | some p => simpa using h p (List.mem_of_find?_eq_some hf)

lemma mem_cleanup {rl : RateLimiter} {now : Int} :
    ∀ p ∈ (rl.cleanup now).requests, ∃ q ∈ rl.requests, p.2.length ≤ q.2.length := by
  intro p hp
  unfold RateLimiter.cleanup at hp
  simp only [List.mem_filter, List.mem_map] at hp
  obtain ⟨⟨q, hq, hqp⟩, -⟩ := hp
  refine ⟨q, hq, ?_⟩
  rw [← hqp]
  exact List.length_filter_le _ _

lemma inWindow_replicate {m : Nat} {w now : Int} (hw : 1 ≤ w) (j : Nat) :
    inWindow ⟨m, w⟩ now (List.replicate j now) = List.replicate j now := by
  unfold inWindow
  rw [List.filter_eq_self]
  intro a ha
  rw [List.eq_of_mem_replicate ha]
  simp only [decide_eq_true_eq]
  omega

lemma runCalls_burst {m : Nat} {w : Int} (key : String) (now : Int) (hw : 1 ≤ w) :
    ∀ (k j : Nat) (rl : RateLimiter), rl.config = ⟨m, w⟩ →
      rl.keyLog key = List.replicate j now → j + k ≤ m →
      (runCalls rl key now k).1 = true
      ∧ (runCalls rl key now k).2.config = ⟨m, w⟩
      ∧ (runCalls rl key now k).2.keyLog key = List.replicate (j + k) now := by
  intro k
  induction k with
  | zero => intro j rl hcfg hlog hjk; exact ⟨rfl, hcfg, by simpa using hlog⟩
  | succ k ih =>
    intro j rl hcfg hlog hjk
    have hwin : inWindow rl.config now (rl.keyLog key) = List.replicate j now := by
      rw [hcfg, hlog, inWindow_replicate hw]
    have hadmit : (rl.checkLimit key now false).1 = true := by
      rw [checkLimit_fst_eq_decide, decide_eq_true_eq, hwin, hcfg]
      simp only [List.length_replicate]
      omega
    have hstate : ((rl.checkLimit key now false).2).keyLog key
        = List.replicate (j + 1) now := by
      rw [checkLimit_keyLog_true rl key now hadmit, hwin, ← List.replicate_succ']
    have hcfg' : ((rl.checkLimit key now false).2).config = ⟨m, w⟩ := by
      rw [checkLimit_config, hcfg]
    obtain ⟨h1, h2, h3⟩ := ih (j + 1) (rl.checkLimit key now false).2 hcfg' hstate (by omega)
    refine ⟨?_, ?_, ?_⟩
    · simp only [runCalls, hadmit, h1, Bool.and_self]
    · simpa [runCalls] using h2
    · simpa [runCalls] using by rw [h3]; congr 1; omega

/-- C2: for a `RateLimiter` with configuration `(maxRequests, windowMs)` and
any fixed key, `checkLimit(key)` admits a call exactly when fewer than
`maxRequests` previously recorded timestamps lie within the last `windowMs`
(and, when admitted, records the current timestamp); consequently, starting
from a fresh limiter, a burst of `maxRequests` calls in quick succession is
fully admitted, an immediately following call is denied, and a call after the
window has elapsed past the recorded timestamps is admitted again. -/
theorem C2_checkLimit_sliding_window_bound :
    (∀ (rl : RateLimiter) (key : String) (now : Int) (b : Bool),
      ((rl.checkLimit key now b).1 = true ↔
        (inWindow rl.config now (rl.keyLog key)).length < rl.config.maxRequests)
      ∧ ((rl.checkLimit key now b).1 = true →
          ((rl.checkLimit key now false).2).keyLog key
            = inWindow rl.config now (rl.keyLog key) ++ [now]))
    ∧ (∀ (m : Nat) (w now now' : Int) (key : String),
        1 ≤ m → 1 ≤ w → now + w ≤ now' →
        (runCalls ⟨⟨m, w⟩, []⟩ key now m).1 = true
        ∧ (((runCalls ⟨⟨m, w⟩, []⟩ key now m).2).checkLimit key now false).1 = false
        ∧ (((runCalls ⟨⟨m, w⟩, []⟩ key now m).2).checkLimit key now' false).1 = true) := by
  constructor
  · intro rl key now b
    refine ⟨checkLimit_admit_iff rl key now b, ?_⟩
    intro h
    have h' : (rl.checkLimit key now false).1 = true := by
      rw [checkLimit_fst_eq_decide] at h ⊢; exact h
    exact checkLimit_keyLog_true rl key now h'
  · intro m w now now' key hm hw hnow
    have h0 : (RateLimiter.mk ⟨m, w⟩ []).keyLog key = List.replicate 0 now := by
      simp [RateLimiter.keyLog, mapGet]
    obtain ⟨h1, h2, h3⟩ := runCalls_burst key now hw m 0 ⟨⟨m, w⟩, []⟩ rfl h0 (by omega)
    rw [Nat.zero_add] at h3
    refine ⟨h1, ?_, ?_⟩
    · rw [checkLimit_fst_eq_decide, h2, h3, inWindow_replicate hw,
        decide_eq_false_iff_not]
      simp
    · rw [checkLimit_fst_eq_decide, h2, h3, decide_eq_true_eq]
      have : inWindow ⟨m, w⟩ now' (List.replicate m now) = [] := by
        unfold inWindow
        rw [List.filter_eq_nil_iff]
        intro a ha
        rw [List.eq_of_mem_replicate ha]
        simp only [decide_eq_true_eq]
        omega
      rw [this]
      simpa using hm

/-- Witness for C2 at the spec's concrete configuration `(5, 1000)`:
5 admitted calls, a denied 6th, and re-admission after the window. -/
theorem C2_checkLimit_sliding_window_bound_witness :
    (runCalls ⟨⟨5, 1000⟩, []⟩ "clickup-api" 0 5).1 = true
    ∧ (((runCalls ⟨⟨5, 1000⟩, []⟩ "clickup-api" 0 5).2).checkLimit "clickup-api" 0 false).1
        = false
    ∧ (((runCalls ⟨⟨5, 1000⟩, []⟩ "clickup-api" 0 5).2).checkLimit "clickup-api" 1000
        false).1 = true :=
  C2_checkLimit_sliding_window_bound.2 5 1000 0 1000 "clickup-api"
    (by norm_num) (by norm_num) (by norm_num)

/-- C10: a denied `checkLimit` call appends nothing (it only prunes expired
timestamps), a denied call does not change the outcome of any later call for
the same key, and every stored per-key log stays bounded by `maxRequests`. -/
theorem C10_denied_checks_consume_no_quota :
    ∀ (rl : RateLimiter) (key : String) (now : Int) (b : Bool),
      ((rl.checkLimit key now b).1 = false →
          ((rl.checkLimit key now b).2).keyLog key = inWindow rl.config now (rl.keyLog key))
      ∧ ((rl.checkLimit key now b).1 = false → ∀ (now' : Int) (b' : Bool), now ≤ now' →
          (((rl.checkLimit key now b).2).checkLimit key now' b').1
            = (rl.checkLimit key now' b').1)
      ∧ ((∀ p ∈ rl.requests, p.2.length ≤ rl.config.maxRequests) →
          (∀ p ∈ ((rl.checkLimit key now b).2).requests,
            p.2.length ≤ rl.config.maxRequests)
          ∧ ∀ k', (((rl.checkLimit key now b).2).keyLog k').length
              ≤ rl.config.maxRequests) := by
  intro rl key now b
  refine ⟨checkLimit_keyLog_false rl key now b, ?_, ?_⟩
  · intro h now' b' hle
    rw [checkLimit_fst_eq_decide, checkLimit_fst_eq_decide, checkLimit_config,
      checkLimit_keyLog_false rl key now b h, inWindow_inWindow rl.config now now' _ hle]
  · intro hbound
    have hkey : (rl.keyLog key).length ≤ rl.config.maxRequests := keyLog_length_le hbound key
    have hmain : ∀ p ∈ ((rl.checkLimit key now b).2).requests,
        p.2.length ≤ rl.config.maxRequests := by
      intro p hp
      by_cases hc : rl.config.maxRequests ≤ (inWindow rl.config now (rl.keyLog key)).length
      · simp only [RateLimiter.checkLimit, hc, if_true] at hp
        rcases mem_mapSet p hp with h | h
        · rw [h]
          exact le_trans (List.length_filter_le _ _) hkey
        · exact hbound p h
      · simp only [RateLimiter.checkLimit, hc, if_false] at hp
        have hlt := Nat.lt_of_not_le hc
        cases b with
        | false =>
          simp only [Bool.false_eq_true, if_false] at hp
          rcases mem_mapSet p hp with h | h
          · rw [h]
            simp only [List.length_append, List.length_cons, List.length_nil]
            omega
          · exact hbound p h
        | true =>
          simp only [if_true] at hp
          obtain ⟨q, hq, hlen⟩ := mem_cleanup p hp
          rcases mem_mapSet q hq with h | h
          · rw [h] at hlen
            simp only [List.length_append, List.length_cons, List.length_nil] at hlen
            omega
          · exact le_trans hlen (hbound q h)
    exact ⟨hmain, fun k' => keyLog_length_le hmain k'⟩

/-- Witness for C10 at a concrete saturated bucket: a denied call leaves the
log pruned-only, does not flip a later decision, and preserves the bound. -/
theorem C10_denied_checks_consume_no_quota_witness :
    (((RateLimiter.mk ⟨1, 1000⟩ [("k", [5])]).checkLimit "k" 10 false).2).keyLog "k"
        = inWindow ⟨1, 1000⟩ 10 ((RateLimiter.mk ⟨1, 1000⟩ [("k", [5])]).keyLog "k")
    ∧ ((((RateLimiter.mk ⟨1, 1000⟩ [("k", [5])]).checkLimit "k" 10 false).2).checkLimit
          "k" 12 false).1
        = ((RateLimiter.mk ⟨1, 1000⟩ [("k", [5])]).checkLimit "k" 12 false).1
    ∧ (∀ p ∈ (((RateLimiter.mk ⟨1, 1000⟩ [("k", [5])]).checkLimit "k" 10 false).2).requests,
        p.2.length ≤ 1) := by
  have h := C10_denied_checks_consume_no_quota (RateLimiter.mk ⟨1, 1000⟩ [("k", [5])])
    "k" 10 false
  exact ⟨h.1 (by decide), h.2.1 (by decide) 12 false (by decide),
    (h.2.2 (by decide)).1⟩

/-! ## Webhook signature verification — `ClickUpClient.verifyWebhookSignature`

The source computes `crypto.createHmac('sha256', secret).update(payload)
.digest('hex')` and compares it with the signature header.  HMAC-SHA256 is
embedded below from FIPS 180-4 / RFC 2104, operating on byte lists; 32-bit
words are `Nat` values reduced modulo `2^32`. -/

def rotr32 (x n : Nat) : Nat := ((x >>> n) ||| (x <<< (32 - n))) % 4294967296

def sha256K : List Nat :=
  [1116352408, 1899447441, 3049323471, 3921009573, 961987163,
   1508970993, 2453635748, 2870763221, 3624381080, 310598401,
   607225278, 1426881987, 1925078388, 2162078206, 2614888103,
   3248222580, 3835390401, 4022224774, 264347078, 604807628,
   770255983, 1249150122, 1555081692, 1996064986, 2554220882,
   2821834349, 2952996808, 3210313671, 3336571891, 3584528711,
   113926993, 338241895, 666307205, 773529912, 1294757372,
   1396182291, 1695183700, 1986661051, 2177026350, 2456956037,
   2730485921, 2820302411, 3259730800, 3345764771, 3516065817,
   3600352804, 4094571909, 275423344, 430227734, 506948616,
   659060556, 883997877, 958139571, 1322822218, 1537002063,
   1747873779, 1955562222, 2024104815, 2227730452, 2361852424,
   2428436474, 2756734187, 3204031479, 3329325298]

def sha256H0 : List Nat :=
  [1779033703, 3144134277, 1013904242, 2773480762,
   1359893119, 2600822924, 528734635, 1541459225]

/-- Big-endian 32-bit words from a byte list (length a multiple of 4). -/
def wordsOfBytes : List Nat → List Nat
  | a :: b :: c :: d :: rest => (((a * 256 + b) * 256 + c) * 256 + d) :: wordsOfBytes rest
  | _ => []

/-- Big-endian bytes of a number, `len` bytes wide. -/
def bytesOfNatBE (n len : Nat) : List Nat :=
  (List.range len).map (fun i => n / 256 ^ (len - 1 - i) % 256)

def bytesOfWord32 (w : Nat) : List Nat := bytesOfNatBE w 4

/-- SHA-256 message padding: `0x80`, zeros, then the 64-bit message bit length. -/
def sha256Pad (msg : List Nat) : List Nat :=
  let L := msg.length
  let k := (64 - (L + 9) % 64) % 64
  msg ++ [128] ++ List.replicate k 0 ++ bytesOfNatBE (L * 8) 8

def chunks64Aux : Nat → List Nat → List (List Nat)
  | 0, _ => []
  | n + 1, l => if l.isEmpty then [] else l.take 64 :: chunks64Aux n (l.drop 64)

/-- Splits a byte list into 64-byte blocks (structural recursion on a fuel
bound by the length, so that it evaluates by kernel reduction). -/
def chunks64 (l : List Nat) : List (List Nat) := chunks64Aux l.length l

/-- Extends the 16-word block to the 64-word message schedule, `n` more words. -/
def extendSchedule : List Nat → Nat → List Nat
  | w, 0 => w
  | w, n + 1 =>
    let i := w.length
    let v0 := w.getD (i - 15) 0
    let v1 := w.getD (i - 2) 0
    let s0 := rotr32 v0 7 ^^^ rotr32 v0 18 ^^^ (v0 >>> 3)
    let s1 := rotr32 v1 17 ^^^ rotr32 v1 19 ^^^ (v1 >>> 10)
    extendSchedule (w ++ [(w.getD (i - 16) 0 + s0 + w.getD (i - 7) 0 + s1) % 4294967296]) n

/-- One SHA-256 round on the working state `[a,b,c,d,e,f,g,h]`. -/
def sha256Round (st : List Nat) (wk : Nat × Nat) : List Nat :=
  let a := st.getD 0 0
  let b := st.getD 1 0
  let c := st.getD 2 0
  let d := st.getD 3 0
  let e := st.getD 4 0
  let f := st.getD 5 0
  let g := st.getD 6 0
  let h := st.getD 7 0
  let S1 := rotr32 e 6 ^^^ rotr32 e 11 ^^^ rotr32 e 25
  let ch := (e &&& f) ^^^ ((e ^^^ 4294967295) &&& g)
  let temp1 := (h + S1 + ch + wk.2 + wk.1) % 4294967296
  let S0 := rotr32 a 2 ^^^ rotr32 a 13 ^^^ rotr32 a 22
  let maj := (a &&& b) ^^^ (a &&& c) ^^^ (b &&& c)
  let temp2 := (S0 + maj) % 4294967296
  [(temp1 + temp2) % 4294967296, a, b, c, (d + temp1) % 4294967296, e, f, g]

def sha256Compress (h : List Nat) (block : List Nat) : List Nat :=
  let w := extendSchedule (wordsOfBytes block) 48
  let s := (w.zip sha256K).foldl sha256Round h
  (h.zip s).map (fun p => (p.1 + p.2) % 4294967296)

def sha256 (msg : List Nat) : List Nat :=
  let blocks := chunks64 (sha256Pad msg)
  ((blocks.foldl sha256Compress sha256H0).map bytesOfWord32).flatten

/-- RFC 2104 HMAC over SHA-256, block size 64 bytes. -/
def hmacSha256 (key msg : List Nat) : List Nat :=
  let k0 := if 64 < key.length then sha256 key else key
  let k1 := k0 ++ List.replicate (64 - k0.length) 0
  let ipad := k1.map (fun b => b ^^^ 54)
  let opad := k1.map (fun b => b ^^^ 92)
  sha256 (opad ++ sha256 (ipad ++ msg))

def hexDigit (n : Nat) : Char := if n < 10 then Char.ofNat (48 + n) else Char.ofNat (87 + n)

/-- Lowercase hex encoding, as produced by `.digest('hex')`. -/
def toHex (bs : List Nat) : String := String.mk ((bs.map fun b => [hexDigit (b / 16), hexDigit (b % 16)]).flatten)

/-- UTF-8 encoding of one character. -/
def utf8Enc (c : Char) : List Nat :=
  let n := c.toNat
  if n < 128 then [n]
  else if n < 2048 then [192 + n / 64, 128 + n % 64]
  else if n < 65536 then [224 + n / 4096, 128 + n / 64 % 64, 128 + n % 64]
  else [240 + n / 262144, 128 + n / 4096 % 64, 128 + n / 64 % 64, 128 + n % 64]

/-- UTF-8 bytes of a string, as `hmac.update` consumes string input. -/
def strBytes (s : String) : List Nat := (s.data.map utf8Enc).flatten

/-- FIPS 180-4 test vector, validating the embedded SHA-256. -/
lemma sha256_nist_test_vector : toHex (sha256 (strBytes "abc")) =
    "ba7816bf8f01cfea414140de5dae2223b00361a396177a9cb410ff61f20015ad" := by decide

/-- RFC 4231 test case 2, validating the embedded HMAC-SHA256. -/
lemma hmacSha256_rfc4231_test_vector :
    toHex (hmacSha256 (strBytes "Jefe") (strBytes "what do ya want for nothing?")) =
    "5bdcc146bf60754e6a042426089575c75a003f089d2739839dec58b964ec3843" := by decide

/-- Embeds `ClickUpClient.verifyWebhookSignature(payload, signature)`.
`secretEnv` is `process.env.CLICKUP_WEBHOOK_SECRET` (`none` when unset, in
which case verification is skipped and allowed); otherwise the hex HMAC-SHA256
digest of the payload under the secret is compared with the signature. -/
def verifyWebhookSignature (secretEnv : Option String) (payload signature : String) :
    Bool :=
  match secretEnv with
  | none => true
  | some secret => toHex (hmacSha256 (strBytes secret) (strBytes payload)) == signature

/-- C8: with a configured secret, `verifyWebhookSignature` accepts exactly the
hex HMAC-SHA256 digest of the payload under the secret — so a signed payload
round-trips, and the same payload with one byte altered (here `"payload"`
versus `"payloae"`) no longer verifies against the original signature; with no
secret configured every payload/signature pair is accepted. -/
theorem C8_signature_verification_round_trip :
    (∀ (payload signature : String), verifyWebhookSignature none payload signature = true)
    ∧ (∀ (secret payload signature : String),
        verifyWebhookSignature (some secret) payload signature = true ↔
          signature = toHex (hmacSha256 (strBytes secret) (strBytes payload)))
    ∧ (∀ (secret payload : String),
        verifyWebhookSignature (some secret) payload
          (toHex (hmacSha256 (strBytes secret) (strBytes payload))) = true)
    ∧ verifyWebhookSignature (some "secret") "payloae"
        (toHex (hmacSha256 (strBytes "secret") (strBytes "payload"))) = false := by
  refine ⟨fun _ _ => rfl, ?_, ?_, ?_⟩
  · intro secret payload signature
    unfold verifyWebhookSignature
    rw [beq_iff_eq]
    exact eq_comm
  · intro secret payload
    unfold verifyWebhookSignature
    rw [beq_iff_eq]
  · decide

/-! ## ClickUp API client — `src/lib/clickup/client.ts`

Remote data carried by the API responses.  Only the fields consumed by the
sync engine and webhook processor are represented; the remaining response
fields (tags, assignees, watchers, checklists, custom fields, time tracking,
sharing, …) are copied verbatim into independent store columns by the same
mechanism and are elided. -/

structure ClickUpStatus where
  status : String
  color : String
  type : String
deriving Repr, DecidableEq

structure ClickUpTask where
  id : String
  name : String
  due_date : Option String
  status : Option ClickUpStatus
  parent : Option String
  archived : Bool
  list_id : String
  url : String
deriving Repr, DecidableEq

structure ClickUpComment where
  id : String
  comment_text : Option String
  first_text : Option String
deriving Repr, DecidableEq

structure FolderRef where
  id : String
  name : String
deriving Repr, DecidableEq

structure ListData where
  id : String
  name : String
  space_id : String
  folder : Option FolderRef
  archived : Bool
deriving Repr, DecidableEq

structure SpaceData where
  id : String
  name : String
deriving Repr, DecidableEq

structure WorkspaceData where
  id : String
  name : String
deriving Repr, DecidableEq

/-- Whether `pre` is a prefix of `l` (character-wise). -/
def listStartsWith : List Char → List Char → Bool
  | _, [] => true
  | [], _ :: _ => false
  | a :: as, b :: bs => a == b && listStartsWith as bs

/-- The suffixes standing right after each occurrence of `marker`, scanning
left to right (every position is considered, as a regex engine would). -/
def restsAfter (marker : List Char) : List Char → List (List Char)
  | [] => []
  | c :: cs =>
    let tail := restsAfter marker cs
    if listStartsWith (c :: cs) marker then (c :: cs).drop marker.length :: tail
    else tail

/-- JS `string.includes(sub)`. -/
def strIncludes (s sub : String) : Bool := !(restsAfter sub.data s.data).isEmpty

/-- JS falsiness of an optional string: `undefined`, `null` and `""` are
falsy; every other string is truthy. -/
def jsOrNullStr (o : Option String) : Option String :=
  match o with
  | some s => if s.isEmpty then none else some s
  | none => none

/-- JS `a || b` on an optional string versus a string default. -/
def jsOrStr (a : Option String) (b : String) : String :=
  match jsOrNullStr a with
  | some s => s
  | none => b

/-- First regex-style match of `[^\/\?]+` directly after an occurrence of
`marker`: the earliest occurrence followed by at least one character that is
neither `/` nor `?`, returning the captured run. -/
def matchAfter (url marker : String) : Option String :=
  (restsAfter marker.data url.data).findSome? (fun rest =>
    let captured := rest.takeWhile (fun c => c != '/' && c != '?')
    if captured.isEmpty then none else some (String.mk captured))

/-- Embeds `ClickUpClient.extractListId`: try the direct-list URL shapes
`/v/l/li/{id}`, `/v/li/{id}`, `/li/{id}`, then the view shape `/v/l/{viewId}`,
else assume the input is already a bare list ID. -/
def extractListId (urlOrId : String) : String :=
  match matchAfter urlOrId "/v/l/li/" with
  | some m => m
  | none =>
    match matchAfter urlOrId "/v/li/" with
    | some m => m
    | none =>
      match matchAfter urlOrId "/li/" with
      | some m => m
      | none =>
        match matchAfter urlOrId "/v/l/" with
        | some m => m
        | none => urlOrId

/-- The request path built by `getTasks` for one page, from the template
literal
`/list/(listId)/task?archived=...&include_markdown_description=true&subtasks=true&page=...`. -/
def taskPageEndpoint (listId : String) (archived : Bool) (page : Nat) : String :=
  "/list/" ++ listId ++ "/task?archived=" ++ (if archived then "true" else "false") ++
    "&include_markdown_description=true&subtasks=true&page=" ++ toString page

/-- Embeds the pagination loop of `ClickUpClient.getTasks`.  `fetch` maps a
request path to the page of tasks the remote API answers with; the loop
accumulates pages and stops as soon as a page carries fewer than 100 rows
(or none).  `fuel` bounds the unbounded JS `while` loop: `none` means the
loop would still be running after `fuel` iterations.  Returns the accumulated
tasks together with the request paths issued. -/
def getTasksLoop (fetch : String → List ClickUpTask) (listId : String) (archived : Bool) :
    Nat → Nat → List ClickUpTask → List String → Option (List ClickUpTask × List String)
  | 0, _, _, _ => none
  | fuel + 1, page, acc, reqs =>
    let url := taskPageEndpoint listId archived page
    let response := fetch url
    if 0 < response.length then
      if response.length < 100 then some (acc ++ response, reqs ++ [url])
      else getTasksLoop fetch listId archived fuel (page + 1) (acc ++ response) (reqs ++ [url])
    else some (acc, reqs ++ [url])

/-- Embeds `ClickUpClient.getTasks(listId, archived = false)`. -/
def getTasks (fetch : String → List ClickUpTask) (listId : String) (fuel : Nat)
    (archived : Bool := false) : Option (List ClickUpTask × List String) :=
  getTasksLoop fetch listId archived fuel 0 [] []

/-! ## Date conversion — `new Date(parseInt(ms)).toISOString()`

ClickUp delivers timestamps as decimal millisecond strings; the sync and the
webhook processor convert them to ISO-8601 strings before storing them.
`parseInt` keeps the leading digit run (`NaN` when there is none, in which
case `toISOString` throws a `RangeError`). -/

def parseLeadingNat (s : String) : Option Nat :=
  let digits := s.data.takeWhile (fun c => c.isDigit)
  if digits.isEmpty then none
  else some (digits.foldl (fun acc c => acc * 10 + (c.toNat - 48)) 0)

def pad2 (n : Nat) : String := if n < 10 then "0" ++ toString n else toString n

def pad3 (n : Nat) : String :=
  if n < 10 then "00" ++ toString n else if n < 100 then "0" ++ toString n else toString n

def pad4 (n : Nat) : String :=
  if n < 10 then "000" ++ toString n
  else if n < 100 then "00" ++ toString n
  else if n < 1000 then "0" ++ toString n
  else toString n

/-- Proleptic-Gregorian civil date from days since the Unix epoch
(Howard Hinnant's `civil_from_days`, specialized to non-negative days). -/
def civilFromDays (z : Nat) : Nat × Nat × Nat :=
  let z' := z + 719468
  let era := z' / 146097
  let doe := z' % 146097
  let yoe := (doe - doe / 1460 + doe / 36524 - doe / 146096) / 365
  let y := yoe + era * 400
  let doy := doe - (365 * yoe + yoe / 4 - yoe / 100)
  let mp := (5 * doy + 2) / 153
  let d := doy - (153 * mp + 2) / 5 + 1
  let m := if mp < 10 then mp + 3 else mp - 9
  (if m ≤ 2 then y + 1 else y, m, d)

/-- `new Date(n).toISOString()` for a non-negative millisecond timestamp. -/
def msToIso (n : Nat) : String :=
  let ms := n % 1000
  let secs := n / 1000
  let sec := secs % 60
  let mins := secs / 60
  let minute := mins % 60
  let hours := mins / 60
  let hour := hours % 24
  let days := hours / 24
  let ymd := civilFromDays days
  pad4 ymd.1 ++ "-" ++ pad2 ymd.2.1 ++ "-" ++ pad2 ymd.2.2 ++ "T" ++
    pad2 hour ++ ":" ++ pad2 minute ++ ":" ++ pad2 sec ++ "." ++ pad3 ms ++ "Z"

lemma msToIso_epoch : msToIso 0 = "1970-01-01T00:00:00.000Z" := by decide

lemma msToIso_sample : msToIso 1759190400123 = "2025-09-30T00:00:00.123Z" := by decide

/-- Embeds `x ? new Date(parseInt(x)).toISOString() : null` on an optional
millisecond string; a non-numeric string makes `toISOString` throw. -/
def convDueDate (d : Option String) : Except String (Option String) :=
  match jsOrNullStr d with
  | none => .ok none
  | some s =>
    match parseLeadingNat s with
    | some n => .ok (some (msToIso n))
    | none => .error "RangeError: Invalid time value"

/-! ## Relational store — `supabase/migrations`

Row types for the tables the sync engine writes.  Internal `id` columns
(UUIDs generated by the database) are modelled by a `Nat` counter carried in
the store.  Foreign keys `tasks_CAG_custom.list_id → lists_CAG_custom.id` and
`comments_CAG_custom.task_id → tasks_CAG_custom.id` are `ON DELETE CASCADE`.
Columns not consumed by the synchronization logic are elided. -/

structure ListRow where
  id : Nat
  clickup_list_id : String
  name : String
  url : String
  space_id : Option String
  space_name : Option String
  folder_id : Option String
  folder_name : Option String
  workspace_id : Option String
  workspace_name : Option String
  is_archived : Bool
  last_synced : Nat
deriving Repr, DecidableEq

structure TaskRow where
  id : Nat
  list_id : Nat
  clickup_task_id : String
  name : String
  due_date : Option String
  status : Option String
  status_color : Option String
  status_type : Option String
  parent_task_id : Option String
  is_archived : Bool
  url : String
deriving Repr, DecidableEq

structure CommentRow where
  id : Nat
  task_id : Nat
  clickup_id : String
  text : Option String
  comment_text : Option String
deriving Repr, DecidableEq

structure WebhookRow where
  id : Nat
  list_id : Nat
  clickup_webhook_id : String
  callback_url : String
  is_active : Bool
  last_event_at : Option Nat
deriving Repr, DecidableEq

structure HistoryRow where
  task_id : Nat
  clickup_task_id : String
  old_due_date : Option String
  new_due_date : Option String
  changed_by : Option String
deriving Repr, DecidableEq

structure Store where
  lists : List ListRow
  tasks : List TaskRow
  comments : List CommentRow
  webhooks : List WebhookRow
  task_due_date_history : List HistoryRow
  nextId : Nat
deriving Repr, DecidableEq

def emptyStore : Store := ⟨[], [], [], [], [], 1⟩

/-- The relations the migrations create.  A Supabase query against any other
relation name returns an error with null data. -/
def relationNames : List String :=
  ["lists_CAG_custom", "tasks_CAG_custom", "comments_CAG_custom",
   "webhooks_CAG_custom", "task_due_date_history"]

def relationExists (n : String) : Bool := relationNames.contains n

/-- The column values written by a task upsert (`onConflict: clickup_task_id`),
shared between `syncList` and `handleTaskUpdate`. -/
structure TaskInsert where
  list_id : Nat
  clickup_task_id : String
  name : String
  due_date : Option String
  status : Option String
  status_color : Option String
  status_type : Option String
  parent_task_id : Option String
  is_archived : Bool
  url : String
deriving Repr, DecidableEq

/-- Upsert with conflict target `clickup_task_id`: update the matching row in
place (internal id preserved) or append a fresh row. -/
def upsertTask (s : Store) (t : TaskInsert) : Store :=
  if s.tasks.any (fun r => r.clickup_task_id == t.clickup_task_id) then
    { s with
      tasks := s.tasks.map (fun r =>
        if r.clickup_task_id == t.clickup_task_id then
          { r with
            list_id := t.list_id, name := t.name, due_date := t.due_date,
            status := t.status, status_color := t.status_color,
            status_type := t.status_type, parent_task_id := t.parent_task_id,
            is_archived := t.is_archived, url := t.url }
        else r) }
  else
    { s with
      tasks := s.tasks ++
        [{ id := s.nextId, list_id := t.list_id,
           clickup_task_id := t.clickup_task_id, name := t.name,
           due_date := t.due_date, status := t.status,
           status_color := t.status_color, status_type := t.status_type,
           parent_task_id := t.parent_task_id, is_archived := t.is_archived,
           url := t.url }],
      nextId := s.nextId + 1 }

/-- The column values written by the list upsert (`onConflict: clickup_list_id`). -/
structure ListInsert where
  clickup_list_id : String
  name : String
  url : String
  space_id : Option String
  space_name : Option String
  folder_id : Option String
  folder_name : Option String
  workspace_id : Option String
  workspace_name : Option String
  is_archived : Bool
  last_synced : Nat
deriving Repr, DecidableEq

/-- Upsert with conflict target `clickup_list_id`, returning the row selected
by `.select().single()`. -/
def upsertList (s : Store) (l : ListInsert) : Store × ListRow :=
  match s.lists.find? (fun r => r.clickup_list_id == l.clickup_list_id) with
  | some r =>
    let updated : ListRow :=
      { r with
        name := l.name, url := l.url, space_id := l.space_id,
        space_name := l.space_name, folder_id := l.folder_id,
        folder_name := l.folder_name, workspace_id := l.workspace_id,
        workspace_name := l.workspace_name, is_archived := l.is_archived,
        last_synced := l.last_synced }
    ({ s with
       lists := s.lists.map (fun r' =>
         if r'.clickup_list_id == l.clickup_list_id then updated else r') },
     updated)
  | none =>
    let fresh : ListRow :=
      { id := s.nextId, clickup_list_id := l.clickup_list_id, name := l.name,
        url := l.url, space_id := l.space_id, space_name := l.space_name,
        folder_id := l.folder_id, folder_name := l.folder_name,
        workspace_id := l.workspace_id, workspace_name := l.workspace_name,
        is_archived := l.is_archived, last_synced := l.last_synced }
    ({ s with lists := s.lists ++ [fresh], nextId := s.nextId + 1 }, fresh)

/-- Deletes the task rows with the given remote ID; their comments go with
them (`ON DELETE CASCADE` on `comments_CAG_custom.task_id`). -/
def deleteTaskByClickupId (s : Store) (tid : String) : Store :=
  let doomed := s.tasks.filter (fun r => r.clickup_task_id == tid)
  { s with
    tasks := s.tasks.filter (fun r => !(r.clickup_task_id == tid)),
    comments := s.comments.filter (fun c => !(doomed.any (fun r => r.id == c.task_id))) }

/-- The remote task IDs currently stored for a list (internal list id). -/
def remoteTaskIdsForList (s : Store) (lid : Nat) : List String :=
  (s.tasks.filter (fun t => t.list_id == lid)).map (fun t => t.clickup_task_id)

/-- The `.single()` query for an active webhook registration of a list:
a row is returned exactly when the result set has exactly one row. -/
def singleActiveWebhook (s : Store) (lid : Nat) : Option WebhookRow :=
  match s.webhooks.filter (fun w => w.list_id == lid && w.is_active) with
  | [r] => some r
  | _ => none

/-- Number of active webhook-registration rows stored for a list. -/
def activeWebhookCount (s : Store) (lid : Nat) : Nat :=
  (s.webhooks.filter (fun w => w.list_id == lid && w.is_active)).length

/-! ## Full list sync — `src/lib/clickup/sync.ts` -/

/-- Maps one fetched task to the row values upserted for it (the shared field
mapping of `syncList` and `handleTaskUpdate`; the `|| null` coalescing of the
source is `jsOrNullStr`).  The due-date conversion can throw. -/
def taskToInsert (listRowId : Nat) (t : ClickUpTask) : Except String TaskInsert :=
  match convDueDate t.due_date with
  | .error e => .error e
  | .ok dd =>
    .ok
      { list_id := listRowId,
        clickup_task_id := t.id,
        name := t.name,
        due_date := dd,
        status := jsOrNullStr (t.status.map (fun st => st.status)),
        status_color := jsOrNullStr (t.status.map (fun st => st.color)),
        status_type := jsOrNullStr (t.status.map (fun st => st.type)),
        parent_task_id := jsOrNullStr t.parent,
        is_archived := t.archived,
        url := t.url }

/-- `tasksData.tasks.map(...)`: the first conversion error aborts the map. -/
def mapTasks (listRowId : Nat) : List ClickUpTask → Except String (List TaskInsert)
  | [] => .ok []
  | t :: rest =>
    match taskToInsert listRowId t with
    | .error e => .error e
    | .ok r =>
      match mapTasks listRowId rest with
      | .error e => .error e
      | .ok rs => .ok (r :: rs)

/-- Database-driver failure injection for the sync's writes: the error value
(if any) a given write returns.  `taskBatchError i` is the outcome of the
upsert call for batch `i` (`BATCH_SIZE = 100`). -/
structure DbOracle where
  listUpsertError : Option String
  taskBatchError : Nat → Option String

/-- The chunked task upsert loop: a new Supabase batch starts at every 100th
row; a failing batch throws and aborts the remaining batches, while rows of
already-committed batches stay. -/
def batchUpsertAux (db : DbOracle) : Store → List TaskInsert → Nat → Except String Store
  | s, [], _ => .ok s
  | s, row :: rest, idx =>
    if idx % 100 == 0 then
      match db.taskBatchError (idx / 100) with
      | some e =>
        .error ("Failed to upsert tasks (batch " ++ toString (idx / 100 + 1) ++ "): " ++ e)
      | none => batchUpsertAux db (upsertTask s row) rest (idx + 1)
    else batchUpsertAux db (upsertTask s row) rest (idx + 1)

/-- Remote fetch results consumed by `syncList` (each `Except.error` is a
thrown `ClickUp API error`). -/
structure SyncOracle where
  getListIdFromView : String → Option String
  getList : String → Except String ListData
  getSpace : String → Except String SpaceData
  getWorkspaces : Except String (List WorkspaceData)
  fetchTaskPage : String → List ClickUpTask

/-- The view-URL resolution of `syncList`: split the view token on `-`, build
the candidate list (view-API lookup first when it yields an ID), and keep the
first candidate that `getList` validates. -/
def resolveFromView (o : SyncOracle) (extractedId : String) : Except String String :=
  let parts := extractedId.splitOn "-"
  let candidates :=
    if 3 ≤ parts.length then
      [String.intercalate "-" ((parts.drop 1).dropLast),
       String.intercalate "-" (parts.drop 1)]
    else []
  let candidates :=
    match o.getListIdFromView extractedId with
    | some lid => lid :: candidates
    | none => candidates
  match candidates.find? (fun c => (o.getList c).isOk) with
  | some c => .ok c
  | none =>
    .error ("Could not determine list ID from view URL. Tried: " ++
      String.intercalate ", " candidates)

/-- `process.env` configuration consumed by the sync: `none` covers both an
unset and an empty (falsy) `CLICKUP_WEBHOOK_CALLBACK_URL`. -/
structure ClickUpEnv where
  webhookCallbackUrl : Option String

/-- Embeds `registerWebhook(internalListId, clickupListId)`: skip without a
callback URL; skip when an active registration row already exists
(`.single()`); otherwise create the remote webhook and insert the row — and
swallow any error of those last two steps (`catch` logs and returns). -/
def registerWebhook (env : ClickUpEnv) (createWebhook : String → Except String String)
    (webhookInsertError : Option String) (s : Store) (internalListId : Nat)
    (clickupListId : String) : Store :=
  match env.webhookCallbackUrl with
  | none => s
  | some cb =>
    match singleActiveWebhook s internalListId with
    | some _ => s
    | none =>
      match createWebhook clickupListId with
      | .error _ => s
      | .ok webhookId =>
        match webhookInsertError with
        | some _ => s
        | none =>
          { s with
            webhooks := s.webhooks ++
              [{ id := s.nextId, list_id := internalListId,
                 clickup_webhook_id := webhookId, callback_url := cb,
                 is_active := true, last_event_at := none }],
            nextId := s.nextId + 1 }

structure SyncResult where
  success : Bool
  list : ListRow
  tasks : Nat
  comments : Nat
deriving Repr, DecidableEq

/-- Steps 0–3 of `syncList` — ID resolution, list/space/workspace fetch, list
upsert, paginated task fetch, task mapping and chunked upsert.  Comment
backfill is skipped by the source (`totalComments = 0`).  Returns the updated
store, the list row, the ClickUp list id and the number of upserted tasks. -/
def syncListCore (o : SyncOracle) (db : DbOracle) (s : Store) (now fuel : Nat)
    (listUrl : String) : Except String (Store × ListRow × String × Nat) :=
  let extractedId := extractListId listUrl
  let listIdE : Except String String :=
    if strIncludes listUrl "/v/l/" && !strIncludes listUrl "/v/l/li/" then
      resolveFromView o extractedId
    else .ok extractedId
  match listIdE with
  | .error e => .error e
  | .ok listId =>
    match o.getList listId with
    | .error e => .error e
    | .ok listData =>
      match o.getSpace listData.space_id with
      | .error e => .error e
      | .ok spaceData =>
        match o.getWorkspaces with
        | .error e => .error e
        | .ok teams =>
          match teams.head? with
          | none => .error "TypeError: workspaces.teams is empty"
          | some workspace =>
            match db.listUpsertError with
            | some e => .error ("Failed to upsert list: " ++ e)
            | none =>
              let up := upsertList s
                { clickup_list_id := listData.id, name := listData.name,
                  url := listUrl, space_id := some spaceData.id,
                  space_name := some spaceData.name,
                  folder_id := jsOrNullStr (listData.folder.map (fun f => f.id)),
                  folder_name := jsOrNullStr (listData.folder.map (fun f => f.name)),
                  workspace_id := some workspace.id,
                  workspace_name := some workspace.name,
                  is_archived := listData.archived, last_synced := now }
              match getTasks o.fetchTaskPage listId fuel false with
              | none => .error "pagination still running after fuel iterations"
              | some pages =>
                match mapTasks up.2.id pages.1 with
                | .error e => .error e
                | .ok tasksToUpsert =>
                  match batchUpsertAux db up.1 tasksToUpsert 0 with
                  | .error e => .error e
                  | .ok s2 => .ok (s2, up.2, listData.id, tasksToUpsert.length)

/-- Embeds `syncList(listUrl)`: the core pipeline, then webhook registration
(whose failure is swallowed), then the success result. -/
def syncList (env : ClickUpEnv) (o : SyncOracle) (db : DbOracle)
    (createWebhook : String → Except String String) (webhookInsertError : Option String)
    (s : Store) (now fuel : Nat) (listUrl : String) :
    Except String (SyncResult × Store) :=
  match syncListCore o db s now fuel listUrl with
  | .error e => .error e
  | .ok (s2, listRow, clickupListId, nTasks) =>
    let s3 := registerWebhook env createWebhook webhookInsertError s2
      listRow.id clickupListId
    .ok ({ success := true, list := listRow, tasks := nTasks, comments := 0 }, s3)

/-! ## Webhook delta processor — `src/lib/clickup/webhook-handler.ts` -/

structure EventComment where
  id : String
deriving Repr, DecidableEq

structure WebhookEvent where
  type : String
  comment : Option EventComment
  user : Option String
deriving Repr, DecidableEq

/-- The destructured webhook payload; `none` fields are absent JSON keys. -/
structure WebhookPayload where
  event : Option WebhookEvent
  task_id : Option String
  list_id : Option String
deriving Repr, DecidableEq

/-- Remote fetches issued while processing one event; `Except.error` is a
thrown `ClickUp API error`, caught by the handler that issued the fetch. -/
structure HandlerOracle where
  getTask : String → Except String ClickUpTask
  getComments : String → Except String (List ClickUpComment)

/-- Embeds `handleTaskUpdate(event, taskId, listId)`.  All errors are caught
by this handler's own try/catch, which logs and returns; Supabase write
errors are returned values the source only logs, so they never throw.
The internal-list lookup queries relation `lists` (the migrations define only
`lists_CAG_custom`), so the Supabase client answers it with an error and null
data, which `relationExists "lists"` reflects. -/
def handleTaskUpdate (o : HandlerOracle) (s : Store) (event : WebhookEvent)
    (taskId listId : Option String) : Store :=
  match jsOrNullStr taskId with
  | none => s
  | some tid =>
    match o.getTask tid with
    | .error _ => s
    | .ok taskData =>
      match convDueDate taskData.due_date with
      | .error _ => s
      | .ok newDueDate =>
        let existingTask := s.tasks.find? (fun r => r.clickup_task_id == tid)
        let s1 :=
          match existingTask with
          | none => s
          | some ex =>
            if ex.due_date != newDueDate && (ex.due_date != none || newDueDate != none)
            then
              { s with
                task_due_date_history := s.task_due_date_history ++
                  [{ task_id := ex.id, clickup_task_id := tid,
                     old_due_date := ex.due_date, new_due_date := newDueDate,
                     changed_by := jsOrNullStr event.user }] }
            else s
        let list :=
          if relationExists "lists" then
            s1.lists.find? (fun l => l.clickup_list_id == jsOrStr listId taskData.list_id)
          else none
        match list with
        | none => s1
        | some l =>
          match taskToInsert l.id taskData with
          | .error _ => s1
          | .ok row => upsertTask s1 row

/-- Embeds `handleTaskDelete`: delete the task row by remote ID (comments
cascade). -/
def handleTaskDelete (s : Store) (taskId : Option String) : Store :=
  match jsOrNullStr taskId with
  | none => s
  | some tid => deleteTaskByClickupId s tid

/-- The text columns written for a fetched comment:
`comment.comment_text || (comment.comment && comment.comment[0]?.text) || null`. -/
def commentTextValue (c : ClickUpComment) : Option String :=
  match jsOrNullStr c.comment_text with
  | some t => some t
  | none => jsOrNullStr c.first_text

/-- Upsert with conflict target `clickup_id`. -/
def upsertComment (s : Store) (taskRowId : Nat) (c : ClickUpComment) : Store :=
  if s.comments.any (fun r => r.clickup_id == c.id) then
    { s with
      comments := s.comments.map (fun r =>
        if r.clickup_id == c.id then
          { r with
            task_id := taskRowId, text := commentTextValue c,
            comment_text := jsOrNullStr c.comment_text }
        else r) }
  else
    { s with
      comments := s.comments ++
        [{ id := s.nextId, task_id := taskRowId, clickup_id := c.id,
           text := commentTextValue c, comment_text := jsOrNullStr c.comment_text }],
      nextId := s.nextId + 1 }

/-- Embeds `handleCommentCreate`. -/
def handleCommentCreate (o : HandlerOracle) (s : Store) (event : WebhookEvent)
    (taskId : Option String) : Store :=
  match jsOrNullStr taskId with
  | none => s
  | some tid =>
    match s.tasks.find? (fun r => r.clickup_task_id == tid) with
    | none => s
    | some task =>
      match o.getComments tid with
      | .error _ => s
      | .ok commentsData =>
        let target := event.comment.map (fun c => c.id)
        match commentsData.find? (fun c => some c.id == target) with
        | none => s
        | some comment => upsertComment s task.id comment

/-- Embeds `handleCommentUpdate`: `.update().eq('clickup_id', …)` touches only
existing rows.  When `taskId` is absent the source still interpolates it into
the fetch URL as the string `undefined`. -/
def handleCommentUpdate (o : HandlerOracle) (s : Store) (event : WebhookEvent)
    (taskId : Option String) : Store :=
  match jsOrNullStr (event.comment.map (fun c => c.id)) with
  | none => s
  | some commentId =>
    match o.getComments (jsOrStr taskId "undefined") with
    | .error _ => s
    | .ok commentsData =>
      match commentsData.find? (fun c => c.id == commentId) with
      | none => s
      | some comment =>
        { s with
          comments := s.comments.map (fun r =>
            if r.clickup_id == commentId then
              { r with
                text := commentTextValue comment,
                comment_text := jsOrNullStr comment.comment_text }
            else r) }

/-- Embeds `handleCommentDelete`. -/
def handleCommentDelete (s : Store) (event : WebhookEvent) : Store :=
  match jsOrNullStr (event.comment.map (fun c => c.id)) with
  | none => s
  | some commentId =>
    { s with comments := s.comments.filter (fun r => !(r.clickup_id == commentId)) }

/-- Embeds `updateWebhookTimestamp`: look the list up in `lists_CAG_custom`,
stamp its webhooks' `last_event_at` and the list's `last_synced`. -/
def updateWebhookTimestamp (s : Store) (clickupListId : String) (now : Nat) : Store :=
  match s.lists.find? (fun l => l.clickup_list_id == clickupListId) with
  | none => s
  | some list =>
    { s with
      webhooks := s.webhooks.map (fun w =>
        if w.list_id == list.id then { w with last_event_at := some now } else w),
      lists := s.lists.map (fun l =>
        if l.id == list.id then { l with last_synced := now } else l) }

/-- The value `handleWebhookEvent` resolves with. -/
structure HandlerResult where
  success : Bool
  error : Option String
deriving Repr, DecidableEq

/-- Embeds `handleWebhookEvent(payload)`.  A `none` payload models a JSON
`null`, whose destructuring throws a `TypeError` that the outermost catch
swallows (returning success anyway, by design).  Event dispatch follows the
source's `switch`; unrecognized types are logged no-ops. -/
def handleWebhookEvent (o : HandlerOracle) (s : Store) (now : Nat)
    (payload : Option WebhookPayload) : HandlerResult × Store :=
  match payload with
  | none => ({ success := true, error := some "TypeError" }, s)
  | some p =>
    match p.event with
    | none => ({ success := true, error := none }, s)
    | some ev =>
      let s1 :=
        if ev.type == "taskCreated" || ev.type == "taskUpdated" then
          handleTaskUpdate o s ev p.task_id p.list_id
        else if ev.type == "taskDeleted" then handleTaskDelete s p.task_id
        else if ev.type == "taskCommentPosted" then handleCommentCreate o s ev p.task_id
        else if ev.type == "taskCommentUpdated" then handleCommentUpdate o s ev p.task_id
        else if ev.type == "taskCommentDeleted" then handleCommentDelete s ev
        else s
      let s2 :=
        match jsOrNullStr p.list_id with
        | some lid => updateWebhookTimestamp s1 lid now
        | none => s1
      ({ success := true, error := none }, s2)

/-- Embeds the webhook HTTP `POST` route.  `parsed` is the outcome of
`JSON.parse(body)` (its throw lands in the outer catch, which acknowledges
with 200); after the signature check the event is processed fire-and-forget
and the route answers 200 immediately.  Returns the HTTP status and the store
once the background processing settles. -/
def routePOST (secretEnv : Option String) (rawBody : String)
    (parsed : Except String (Option WebhookPayload)) (signatureHeader : Option String)
    (o : HandlerOracle) (s : Store) (now : Nat) : Nat × Store :=
  match parsed with
  | .error _ => (200, s)
  | .ok payload =>
    let signature := signatureHeader.getD ""
    if !verifyWebhookSignature secretEnv rawBody signature then (401, s)
    else
      let bg := handleWebhookEvent o s now payload
      (200, bg.2)

/-! ## Claim theorems: webhook error swallowing -/

/-- C3: `handleWebhookEvent` never throws — whatever the payload and whatever
errors the remote fetches raise, it returns a success result; and the webhook
HTTP POST route answers 200 whenever the signature verifies (and even when
`JSON.parse` throws), so internal processing failures are invisible to the
remote service. -/
theorem C3_webhook_processing_errors_swallowed :
    (∀ (o : HandlerOracle) (s : Store) (now : Nat) (payload : Option WebhookPayload),
      (handleWebhookEvent o s now payload).1.success = true)
    ∧ (∀ (secretEnv : Option String) (rawBody : String)
        (parsed : Except String (Option WebhookPayload)) (sig : Option String)
        (o : HandlerOracle) (s : Store) (now : Nat),
        verifyWebhookSignature secretEnv rawBody (sig.getD "") = true →
        (routePOST secretEnv rawBody parsed sig o s now).1 = 200) := by
  constructor
  · intro o s now payload
    cases payload with
    | none => rfl
    | some p =>
      cases hp : p.event with
      | none => simp [handleWebhookEvent, hp]
      | some ev => simp [handleWebhookEvent, hp]
  · intro secretEnv rawBody parsed sig o s now hsig
    cases parsed with
    | error e => rfl
    | ok payload => simp [routePOST, hsig]

/-- Offline remote: every fetch issued by the webhook processor throws. -/
def handlerOracleOffline : HandlerOracle :=
  ⟨fun _ => .error "ClickUp API error: 500", fun _ => .error "ClickUp API error: 500"⟩

/-- Witness for C3: a `taskUpdated` payload processed with every remote fetch
failing still yields a success result, and the POST route (no secret
configured, so the signature verifies) answers 200. -/
theorem C3_webhook_processing_errors_swallowed_witness :
    (handleWebhookEvent handlerOracleOffline emptyStore 7
      (some ⟨some ⟨"taskUpdated", none, none⟩, some "T3", some "L1"⟩)).1.success = true
    ∧ (routePOST none "not json" (.error "SyntaxError") none handlerOracleOffline
        emptyStore 7).1 = 200 :=
  ⟨C3_webhook_processing_errors_swallowed.1 handlerOracleOffline emptyStore 7
      (some ⟨some ⟨"taskUpdated", none, none⟩, some "T3", some "L1"⟩),
   C3_webhook_processing_errors_swallowed.2 none "not json" (.error "SyntaxError")
      none handlerOracleOffline emptyStore 7 (by decide)⟩

/-! ## Claim theorems: due-date delta on task update -/

/-- Stored list row for the webhook scenarios. -/
def listRowL1 : ListRow :=
  { id := 1, clickup_list_id := "L1", name := "List One",
    url := "https://app.clickup.com/1/v/li/L1", space_id := some "S1",
    space_name := some "Space", folder_id := none, folder_name := none,
    workspace_id := some "W1", workspace_name := some "Workspace",
    is_archived := false, last_synced := 0 }

/-- Stored task `T3` with due date 2025-01-05. -/
def taskRowT3 : TaskRow :=
  { id := 2, list_id := 1, clickup_task_id := "T3", name := "Task Three",
    due_date := some "2025-01-05T00:00:00.000Z", status := some "open",
    status_color := some "#000000", status_type := some "open",
    parent_task_id := none, is_archived := false,
    url := "https://app.clickup.com/t/T3" }

def storeC4 : Store := ⟨[listRowL1], [taskRowT3], [], [], [], 3⟩

/-- The re-fetched task: due date moved to 2025-01-12 (1736640000000 ms). -/
def fetchedT3 : ClickUpTask :=
  { id := "T3", name := "Task Three", due_date := some "1736640000000",
    status := some ⟨"open", "#000000", "open"⟩, parent := none, archived := false,
    list_id := "L1", url := "https://app.clickup.com/t/T3" }

def oracleC4 : HandlerOracle :=
  ⟨fun tid => if tid = "T3" then .ok fetchedT3 else .error "ClickUp API error: 404",
   fun _ => .error "ClickUp API error: 404"⟩

def runC4 : HandlerResult × Store :=
  handleWebhookEvent oracleC4 storeC4 99
    (some ⟨some ⟨"taskUpdated", none, some "user1"⟩, some "T3", some "L1"⟩)

/-- C4, evaluated at the failing input: processing a `taskUpdated` event for
stored task `T3` whose due date moved from 2025-01-05 to 2025-01-12 does
append exactly one Due-Date History row `(old, new)` — but the task row is
never upserted: the internal-list lookup queries relation `lists`, which the
schema does not define (every other query uses `lists_CAG_custom`), so
`handleTaskUpdate` bails out at `List not found` and the stored due date
remains 2025-01-05, contradicting the claim's second half. -/
theorem C4_due_date_delta_history_but_no_upsert :
    runC4.1.success = true
    ∧ runC4.2.task_due_date_history =
        [{ task_id := 2, clickup_task_id := "T3",
           old_due_date := some "2025-01-05T00:00:00.000Z",
           new_due_date := some "2025-01-12T00:00:00.000Z",
           changed_by := some "user1" }]
    ∧ runC4.2.tasks.map (fun t => t.due_date) = [some "2025-01-05T00:00:00.000Z"] := by
  decide

/-! ## Claim theorems: stale deletion on full sync -/

/-- A list already synced once: tasks `A`, `B`, `C` stored, a comment on `C`. -/
def listRow901 : ListRow :=
  { id := 1, clickup_list_id := "901", name := "List One", url := "901",
    space_id := some "S1", space_name := some "Space", folder_id := none,
    folder_name := none, workspace_id := some "W1",
    workspace_name := some "Workspace", is_archived := false, last_synced := 0 }

def taskRowOf (rid : Nat) (tid nm : String) : TaskRow :=
  { id := rid, list_id := 1, clickup_task_id := tid, name := nm,
    due_date := none, status := some "open", status_color := some "#000000",
    status_type := some "open", parent_task_id := none, is_archived := false,
    url := "u" ++ tid }

def storeC1 : Store :=
  ⟨[listRow901],
   [taskRowOf 2 "A" "Task A", taskRowOf 3 "B" "Task B", taskRowOf 4 "C" "Task C"],
   [{ id := 5, task_id := 4, clickup_id := "commentC", text := some "hello",
      comment_text := some "hello" }],
   [], [], 6⟩

def remoteTaskA : ClickUpTask :=
  { id := "A", name := "Task A", due_date := none,
    status := some ⟨"open", "#000000", "open"⟩, parent := none, archived := false,
    list_id := "901", url := "uA" }

def remoteTaskB : ClickUpTask :=
  { id := "B", name := "Task B", due_date := none,
    status := some ⟨"open", "#000000", "open"⟩, parent := none, archived := false,
    list_id := "901", url := "uB" }

/-- The fresh remote fetch answers with tasks `A` and `B` only — `C` was
deleted on the remote side. -/
def syncOracleC1 : SyncOracle :=
  { getListIdFromView := fun _ => none,
    getList := fun lid =>
      if lid = "901" then .ok ⟨"901", "List One", "S1", none, false⟩
      else .error "ClickUp API error: 404",
    getSpace := fun sid =>
      if sid = "S1" then .ok ⟨"S1", "Space"⟩ else .error "ClickUp API error: 404",
    getWorkspaces := .ok [⟨"W1", "Workspace"⟩],
    fetchTaskPage := fun url =>
      if url = taskPageEndpoint "901" false 0 then [remoteTaskA, remoteTaskB] else [] }

def dbOracleOk : DbOracle := ⟨none, fun _ => none⟩

def runC1 : Except String (SyncResult × Store) :=
  syncList ⟨none⟩ syncOracleC1 dbOracleOk (fun _ => .error "no callback") none
    storeC1 50 5 "901"

/-- C1, evaluated at the failing input: a full sync of list `901` whose remote
fetch returns task-ID set `{A, B}` succeeds — but the store afterwards still
holds `{A, B, C}` for the list, and `C`'s comment survives.  `syncList` only
upserts the fetched tasks; it has no stale-deletion pass (`CHANGES.md`
documents deletion detection as implemented in `syncList`, and the claim
demands the store contain exactly the fetched IDs, so the code contradicts
both). -/
theorem C1_stale_tasks_survive_full_sync :
    runC1.toOption.map (fun p =>
        (p.1.success, remoteTaskIdsForList p.2 1,
         p.2.comments.map (fun c => c.clickup_id)))
      = some (true, ["A", "B", "C"], ["commentC"]) := by
  decide

/-! ## Claim theorems: closed/archived inclusion flag -/

/-- C9, evaluated at the failing input: the task-listing request that the full
sync issues (``getTasks`` with the default `archived = false`, exactly as
`syncListCore` invokes it) carries `archived=false` and no
`include_closed` parameter at all — so closed tasks are omitted by the remote
API rather than included.  `CHANGES.md` documents `include_closed=true` as
added to this very request (client.ts line 163), but the code does not set
it, contradicting both the changelog and the claim. -/
theorem C9_sync_task_fetch_omits_closed_items :
    (getTasks syncOracleC1.fetchTaskPage "901" 5 false).map (fun p => p.2)
      = some [taskPageEndpoint "901" false 0]
    ∧ strIncludes (taskPageEndpoint "901" false 0) "archived=false" = true
    ∧ strIncludes (taskPageEndpoint "901" false 0) "include_closed" = false
    ∧ strIncludes (taskPageEndpoint "901" false 0) "subtasks=true" = true := by
  decide

/-! ## Claim theorems: pagination completeness -/

lemma map_range_shift {α : Type} (g : Nat → α) (k p : Nat) :
    (List.range (k + 1)).map (fun j => g (p + j)) =
      g p :: (List.range k).map (fun j => g (p + 1 + j)) := by
  rw [List.range_succ_eq_map, List.map_cons, List.map_map]
  simp only [Nat.add_zero]
  refine congrArg (g p :: ·) (List.map_congr_left ?_)
  intro j _
  simp only [Function.comp_apply]
  congr 1
  omega

lemma getTasksLoop_spec (fetch : String → List ClickUpTask) (listId : String)
    (archived : Bool) :
    ∀ (k p fuel : Nat) (acc : List ClickUpTask) (reqs : List String),
      (∀ j, j < k → 100 ≤ (fetch (taskPageEndpoint listId archived (p + j))).length) →
      (fetch (taskPageEndpoint listId archived (p + k))).length < 100 →
      k < fuel →
      getTasksLoop fetch listId archived fuel p acc reqs =
        some (acc ++ ((List.range (k + 1)).map
                (fun j => fetch (taskPageEndpoint listId archived (p + j)))).flatten,
              reqs ++ (List.range (k + 1)).map
                (fun j => taskPageEndpoint listId archived (p + j))) := by
  intro k
  induction k with
  | zero =>
    intro p fuel acc reqs hlong hshort hfuel
    cases fuel with
    | zero => omega
    | succ f =>
      rw [Nat.add_zero] at hshort
      by_cases hz : 0 < (fetch (taskPageEndpoint listId archived p)).length
      · simp [getTasksLoop, hz, hshort, List.range_succ]
      · have hnil : fetch (taskPageEndpoint listId archived p) = [] :=
          List.eq_nil_of_length_eq_zero (Nat.eq_zero_of_not_pos hz)
        simp [getTasksLoop, hz, hnil, List.range_succ]
  | succ k ih =>
    intro p fuel acc reqs hlong hshort hfuel
    cases fuel with
    | zero => omega
    | succ f =>
      have h0 : 100 ≤ (fetch (taskPageEndpoint listId archived p)).length := by
        have := hlong 0 (Nat.succ_pos k)
        simpa using this
      have hz : 0 < (fetch (taskPageEndpoint listId archived p)).length := by omega
      have hnl : ¬ (fetch (taskPageEndpoint listId archived p)).length < 100 := by omega
      have hstep : getTasksLoop fetch listId archived (f + 1) p acc reqs =
          getTasksLoop fetch listId archived f (p + 1)
            (acc ++ fetch (taskPageEndpoint listId archived p))
            (reqs ++ [taskPageEndpoint listId archived p]) := by
        simp [getTasksLoop, hz, hnl]
      have hlong2 : ∀ j, j < k →
          100 ≤ (fetch (taskPageEndpoint listId archived (p + 1 + j))).length := by
        intro j hj
        have := hlong (j + 1) (by omega)
        have harg : p + (j + 1) = p + 1 + j := by omega
        rwa [harg] at this
      have hshort2 : (fetch (taskPageEndpoint listId archived (p + 1 + k))).length
          < 100 := by
        have harg : p + (k + 1) = p + 1 + k := by omega
        rwa [harg] at hshort
      rw [hstep, ih (p + 1) f _ _ hlong2 hshort2 (by omega),
        map_range_shift (fun i => fetch (taskPageEndpoint listId archived i)) (k + 1) p,
        map_range_shift (taskPageEndpoint listId archived) (k + 1) p]
      simp [List.append_assoc]

/-- C7: `getTasks` requests pages `0, 1, …` and stops exactly at the first
page `k` carrying fewer than 100 rows (in particular at an empty page); the
returned collection is the concatenation of all fetched pages, and the request
log shows exactly pages `0 … k` were fetched. -/
theorem C7_pagination_completeness (fetch : String → List ClickUpTask)
    (listId : String) (archived : Bool) (k fuel : Nat)
    (hlong : ∀ j, j < k → 100 ≤ (fetch (taskPageEndpoint listId archived j)).length)
    (hshort : (fetch (taskPageEndpoint listId archived k)).length < 100)
    (hfuel : k < fuel) :
    getTasks fetch listId fuel archived =
      some (((List.range (k + 1)).map
              (fun j => fetch (taskPageEndpoint listId archived j))).flatten,
            (List.range (k + 1)).map (fun j => taskPageEndpoint listId archived j)) := by
  have h := getTasksLoop_spec fetch listId archived k 0 fuel [] []
    (fun j hj => by simpa using hlong j hj) (by simpa using hshort) hfuel
  unfold getTasks
  simpa using h

def exampleTask : ClickUpTask :=
  { id := "X", name := "Task X", due_date := none, status := none, parent := none,
    archived := false, list_id := "L", url := "uX" }

/-- Two remote pages: page 0 is full (100 rows), page 1 carries one row. -/
def pageFetchExample : String → List ClickUpTask := fun url =>
  if url = taskPageEndpoint "L" false 0 then List.replicate 100 exampleTask
  else [exampleTask]

/-- Witness for C7: with a full page 0 and a short page 1, `getTasks` returns
the concatenation of both pages and requested exactly pages 0 and 1. -/
theorem C7_pagination_completeness_witness :
    getTasks pageFetchExample "L" 3 false =
      some (((List.range 2).map
              (fun j => pageFetchExample (taskPageEndpoint "L" false j))).flatten,
            (List.range 2).map (fun j => taskPageEndpoint "L" false j)) :=
  C7_pagination_completeness pageFetchExample "L" false 1 3
    (fun j hj => by
      have hj0 : j = 0 := by omega
      subst hj0
      decide)
    (by decide) (by omega)

/-! ## Claim theorems: webhook registration uniqueness and idempotence -/

lemma upsertTask_webhooks (s : Store) (t : TaskInsert) :
    (upsertTask s t).webhooks = s.webhooks := by
  unfold upsertTask
  by_cases h : s.tasks.any (fun r => r.clickup_task_id == t.clickup_task_id) <;>
    simp [h]

lemma upsertList_webhooks (s : Store) (l : ListInsert) :
    (upsertList s l).1.webhooks = s.webhooks := by
  unfold upsertList
  cases s.lists.find? (fun r => r.clickup_list_id == l.clickup_list_id) <;> simp

lemma batchUpsertAux_webhooks (db : DbOracle) :
    ∀ (rows : List TaskInsert) (s : Store) (idx : Nat) (s' : Store),
      batchUpsertAux db s rows idx = .ok s' → s'.webhooks = s.webhooks := by
  intro rows
  induction rows with
  | nil =>
    intro s idx s' h
    simp only [batchUpsertAux, Except.ok.injEq] at h
    rw [← h]
  | cons row rest ih =>
    intro s idx s' h
    unfold batchUpsertAux at h
    split at h
    · split at h
      · exact Except.noConfusion h
      · rw [ih _ _ _ h, upsertTask_webhooks]
    · rw [ih _ _ _ h, upsertTask_webhooks]

lemma syncListCore_webhooks (o : SyncOracle) (db : DbOracle) (s : Store)
    (now fuel : Nat) (url : String) (s2 : Store) (lr : ListRow) (cid : String)
    (n : Nat) (h : syncListCore o db s now fuel url = .ok (s2, lr, cid, n)) :
    s2.webhooks = s.webhooks := by
  simp only [syncListCore] at h
  split at h
  · exact Except.noConfusion h
  split at h
  · exact Except.noConfusion h
  split at h
  · exact Except.noConfusion h
  split at h
  · exact Except.noConfusion h
  split at h
  · exact Except.noConfusion h
  split at h
  · exact Except.noConfusion h
  split at h
  · exact Except.noConfusion h
  split at h
  · exact Except.noConfusion h
  split at h
  · exact Except.noConfusion h
  rename_i sBatch hbatch
  simp only [Except.ok.injEq, Prod.mk.injEq] at h
  obtain ⟨hs2, -, -, -⟩ := h
  rw [← hs2, batchUpsertAux_webhooks db _ _ _ _ hbatch, upsertList_webhooks]

lemma singleActiveWebhook_of_count_one {s : Store} {lid : Nat}
    (h : activeWebhookCount s lid = 1) : ∃ r, singleActiveWebhook s lid = some r := by
  unfold activeWebhookCount at h
  obtain ⟨r, hr⟩ := List.length_eq_one.mp h
  refine ⟨r, ?_⟩
  unfold singleActiveWebhook
  rw [hr]

lemma singleActiveWebhook_of_count_zero {s : Store} {lid : Nat}
    (h : activeWebhookCount s lid = 0) : singleActiveWebhook s lid = none := by
  unfold activeWebhookCount at h
  rw [List.length_eq_zero] at h
  unfold singleActiveWebhook
  rw [h]

lemma registerWebhook_of_count_one (env : ClickUpEnv)
    (cw : String → Except String String) (wie : Option String) (s : Store)
    (lid : Nat) (clid : String) (h : activeWebhookCount s lid = 1) :
    registerWebhook env cw wie s lid clid = s := by
  obtain ⟨r, hr⟩ := singleActiveWebhook_of_count_one h
  unfold registerWebhook
  cases env.webhookCallbackUrl with
  | none => rfl
  | some cb => rw [hr]

lemma registerWebhook_creates (env : ClickUpEnv)
    (cw : String → Except String String) (wie : Option String) (s : Store)
    (lid : Nat) (clid : String) (cb whid : String)
    (hcb : env.webhookCallbackUrl = some cb) (hcw : cw clid = .ok whid)
    (hwie : wie = none) (h : activeWebhookCount s lid = 0) :
    activeWebhookCount (registerWebhook env cw wie s lid clid) lid = 1 := by
  have h0 : s.webhooks.filter (fun w => w.list_id == lid && w.is_active) = [] := by
    unfold activeWebhookCount at h
    exact List.length_eq_zero.mp h
  unfold registerWebhook
  rw [hcb, singleActiveWebhook_of_count_zero h, hcw, hwie]
  simp [activeWebhookCount, List.filter_append, h0]

/-- C5: webhook registration keeps at most one active registration row per
list: a run that finds one active registration writes nothing (so a second
full sync in a row — with any oracle outcomes — leaves it untouched), a run
that finds none and succeeds creates exactly one, and the rest of `syncList`
(its core pipeline) never writes the webhooks table at all. -/
theorem C5_webhook_registration_uniqueness_idempotence :
    ∀ (env : ClickUpEnv) (cw cw' : String → Except String String)
      (wie wie' : Option String) (s : Store) (lid : Nat) (clid : String),
      (activeWebhookCount s lid ≤ 1 →
        activeWebhookCount (registerWebhook env cw wie s lid clid) lid ≤ 1)
      ∧ (activeWebhookCount s lid = 1 → registerWebhook env cw wie s lid clid = s)
      ∧ (∀ cb whid, env.webhookCallbackUrl = some cb → cw clid = .ok whid →
          wie = none → activeWebhookCount s lid = 0 →
          activeWebhookCount
            (registerWebhook env cw' wie'
              (registerWebhook env cw wie s lid clid) lid clid) lid = 1)
      ∧ (∀ (o : SyncOracle) (db : DbOracle) (now fuel : Nat) (url : String)
          (s2 : Store) (lr : ListRow) (cid : String) (n : Nat),
          syncListCore o db s now fuel url = .ok (s2, lr, cid, n) →
          s2.webhooks = s.webhooks) := by
  intro env cw cw' wie wie' s lid clid
  refine ⟨?_, registerWebhook_of_count_one env cw wie s lid clid, ?_, ?_⟩
  · intro hle
    rcases Nat.le_one_iff_eq_zero_or_eq_one.mp hle with h0 | h1
    · have hsingle := singleActiveWebhook_of_count_zero h0
      have hempty : s.webhooks.filter (fun w => w.list_id == lid && w.is_active) = [] := by
        unfold activeWebhookCount at h0
        exact List.length_eq_zero.mp h0
      unfold registerWebhook
      cases env.webhookCallbackUrl with
      | none => exact hle
      | some cb =>
        rw [hsingle]
        cases cw clid with
        | error e => exact hle
        | ok whid =>
          cases wie with
          | some e => exact hle
          | none => simp [activeWebhookCount, List.filter_append, hempty]
    · rw [registerWebhook_of_count_one env cw wie s lid clid h1]
      omega
  · intro cb whid hcb hcw hwie h0
    have h1 := registerWebhook_creates env cw wie s lid clid cb whid hcb hcw hwie h0
    rw [registerWebhook_of_count_one env cw' wie' _ lid clid h1]
    exact h1
  · intro o db now fuel url s2 lr cid n h
    exact syncListCore_webhooks o db s now fuel url s2 lr cid n h

def envCb : ClickUpEnv := ⟨some "https://example.com/api/clickup/webhook"⟩

def cwOk : String → Except String String := fun _ => .ok "wh1"

/-- A store already holding one active registration for list 1. -/
def storeOneActive : Store :=
  ⟨[listRow901], [], [],
   [{ id := 2, list_id := 1, clickup_webhook_id := "wh0",
      callback_url := "https://example.com/api/clickup/webhook", is_active := true,
      last_event_at := none }],
   [], 3⟩

/-- Witness for C5: from zero registrations, registering twice (second run
with any outcome) yields exactly one active row; with one active row the
registration writes nothing and the count stays at most one; and the sync
core at the concrete C1 fixtures leaves the webhooks table untouched. -/
theorem C5_webhook_registration_uniqueness_idempotence_witness :
    activeWebhookCount
      (registerWebhook envCb (fun _ => .error "boom") (some "db down")
        (registerWebhook envCb cwOk none emptyStore 1 "901") 1 "901") 1 = 1
    ∧ registerWebhook envCb cwOk none storeOneActive 1 "901" = storeOneActive
    ∧ activeWebhookCount (registerWebhook envCb cwOk none storeOneActive 1 "901") 1 ≤ 1
    ∧ (syncListCore syncOracleC1 dbOracleOk storeC1 50 5 "901").toOption.map
        (fun q => q.1.webhooks) = some storeC1.webhooks := by
  have h := C5_webhook_registration_uniqueness_idempotence envCb cwOk
    (fun _ => .error "boom") none (some "db down") emptyStore 1 "901"
  have h2 := C5_webhook_registration_uniqueness_idempotence envCb cwOk cwOk none none
    storeOneActive 1 "901"
  have hcore := C5_webhook_registration_uniqueness_idempotence envCb cwOk cwOk none
    none storeC1 1 "901"
  refine ⟨h.2.2.1 "https://example.com/api/clickup/webhook" "wh1" rfl rfl rfl
      (by decide),
    h2.2.1 (by decide), h2.1 (by decide), ?_⟩
  cases heq : syncListCore syncOracleC1 dbOracleOk storeC1 50 5 "901" with
  | error e =>
    have hok : (syncListCore syncOracleC1 dbOracleOk storeC1 50 5 "901").isOk = true := by
      decide
    rw [heq] at hok
    exact Bool.noConfusion hok
  | ok q =>
    have := hcore.2.2.2 syncOracleC1 dbOracleOk 50 5 "901" q.1 q.2.1 q.2.2.1 q.2.2.2
      heq
    show some q.1.webhooks = some storeC1.webhooks
    exact congrArg some this

/-! ## Claim theorems: registration failure does not fail the sync -/

/-- C6: the outcome of `syncList` — whether it succeeds and what it reports —
is independent of the webhook-registration step's failures: swapping in any
remote `createWebhook` result and any registration-insert error changes
neither whether the sync returns, nor the success flag of a returned result
(which is always `true`).  Registration errors are caught inside
`registerWebhook` and never propagate to `syncList`'s caller. -/
theorem C6_registration_failure_does_not_fail_sync :
    ∀ (env : ClickUpEnv) (o : SyncOracle) (db : DbOracle)
      (cw cw' : String → Except String String) (wie wie' : Option String)
      (s : Store) (now fuel : Nat) (url : String),
      ((syncList env o db cw' wie' s now fuel url).isOk
        = (syncList env o db cw wie s now fuel url).isOk)
      ∧ (∀ res s', syncList env o db cw' wie' s now fuel url = .ok (res, s') →
          res.success = true) := by
  intro env o db cw cw' wie wie' s now fuel url
  constructor
  · unfold syncList
    cases syncListCore o db s now fuel url with
    | error e => rfl
    | ok q => rfl
  · intro res s' h
    unfold syncList at h
    split at h
    · exact Except.noConfusion h
    · simp only [Except.ok.injEq, Prod.mk.injEq] at h
      obtain ⟨hres, -⟩ := h
      rw [← hres]

/-- Witness for C6: at the concrete C1 fixtures, a sync whose webhook creation
throws and whose registration insert fails still returns, with success. -/
theorem C6_registration_failure_does_not_fail_sync_witness :
    (syncList envCb syncOracleC1 dbOracleOk (fun _ => .error "boom")
        (some "insert failed") storeC1 50 5 "901").isOk = true
    ∧ (syncList envCb syncOracleC1 dbOracleOk (fun _ => .error "boom")
        (some "insert failed") storeC1 50 5 "901").toOption.map
          (fun p => p.1.success) = some true := by
  have h := C6_registration_failure_does_not_fail_sync envCb syncOracleC1 dbOracleOk
    cwOk (fun _ => .error "boom") none (some "insert failed") storeC1 50 5 "901"
  have hok : (syncList envCb syncOracleC1 dbOracleOk (fun _ => .error "boom")
      (some "insert failed") storeC1 50 5 "901").isOk = true := by
    rw [h.1]
    decide
  refine ⟨hok, ?_⟩
  cases heq : syncList envCb syncOracleC1 dbOracleOk (fun _ => .error "boom")
      (some "insert failed") storeC1 50 5 "901" with
  | error e => rw [heq] at hok; exact Bool.noConfusion hok
  | ok p =>
    have := h.2 p.1 p.2 heq
    show some p.1.success = some true
    exact congrArg some this
